import Mathlib

/-!
Verification of the Smart File Organizer (smart_organizer package).

Shallow embedding of the Python source:
  * `smart_organizer/organizer.py`   — `SmartFileOrganizer` (destination policy,
    probe/retry loop, move + record, batch walker `organize_all`)
  * `smart_organizer/database.py`    — `FileDatabase` (SQLite-backed index)
  * `smart_organizer/file_detector.py` — MIME predicates
  * `smart_organizer/classifiers/document_classifier.py` — label selection
    and `clean_filename`

Paths are modelled as lists of components; rationals stand for the Python
floats (all constants involved are exactly representable); external effects
(filesystem probes, classifier model output, clock) are inputs threaded
through explicit environment records.
-/

namespace SmartOrganizer

/-- A filesystem path, as its list of components. -/
abbrev FsPath := List String

/-- The configuration fields the organizer reads (`config.py`):
`categories` is the ordered category → extension-list mapping,
`confidence_threshold` the AI confidence cutoff. -/
structure Config where
  categories : List (String × List String)
  confidence_threshold : ℚ
deriving Repr

/-- `SmartFileOrganizer.get_category_by_extension`: first configured category
whose extension list contains the file's extension, else `"Others"`. -/
def get_category_by_extension (categories : List (String × List String)) (ext : String) : String :=
  match categories.find? (fun ce => ce.2.contains ext) with
  | some ce => ce.1
  | none => "Others"

/-- The category list gating AI use in `organize_file`
(`category in ["Images", "Videos", "Documents", "Audio"]`). -/
def aiApplicableCategories : List String := ["Images", "Videos", "Documents", "Audio"]

/-- A classifier result: `{'label': ..., 'confidence': ...}`. -/
structure AIResult where
  label : String
  confidence : ℚ
deriving DecidableEq, Repr

/-- Destination-folder policy of `organize_file` (organizer.py lines 110–131):
start from `{organized_dir}/{category}`; when AI is in use, Documents always
get the label subfolder, other AI categories only at
`confidence >= confidence_threshold`. -/
def dest_folder (cfg : Config) (organized_dir : FsPath) (category : String)
    (use_ai : Bool) (ai_result : AIResult) : FsPath :=
  let should_use_ai := use_ai && aiApplicableCategories.contains category
  let base := organized_dir ++ [category]
  if should_use_ai then
    if category == "Documents" then
      base ++ [ai_result.label]
    else if cfg.confidence_threshold ≤ ai_result.confidence then
      base ++ [ai_result.label]
    else
      base
  else
    base

/-- C1: with AI on, Documents always get `{root}/Documents/{label}`; the other
AI-applicable categories get `{root}/{category}/{label}` exactly when
confidence ≥ threshold (boundary inclusive); otherwise (AI off or category
not AI-applicable) the destination is `{root}/{category}`. -/
theorem dest_folder_policy (cfg : Config) (root : FsPath) (category : String)
    (use_ai : Bool) (r : AIResult) :
    (use_ai = true → category = "Documents" →
      dest_folder cfg root category use_ai r = root ++ ["Documents", r.label]) ∧
    (use_ai = true → category ∈ (["Images", "Videos", "Audio"] : List String) →
      dest_folder cfg root category use_ai r =
        if cfg.confidence_threshold ≤ r.confidence then root ++ [category, r.label]
        else root ++ [category]) ∧
    (use_ai = false ∨ category ∉ aiApplicableCategories →
      dest_folder cfg root category use_ai r = root ++ [category]) := by
  refine ⟨?_, ?_, ?_⟩
  · rintro rfl rfl
    simp [dest_folder, aiApplicableCategories]
  · rintro rfl hc
    fin_cases hc <;> simp [dest_folder, aiApplicableCategories]
  · rintro (rfl | hc)
    · simp [dest_folder]
    · have : aiApplicableCategories.contains category = false := by
        simpa using hc
      simp only [dest_folder, this, Bool.and_false, if_neg Bool.false_ne_true]

/-- Witness for `dest_folder_policy` at concrete inputs: a Documents file with
confidence 0 still lands in its label folder; an Images file at exactly the
threshold takes the labeled branch. -/
theorem dest_folder_policy_witness :
    dest_folder ⟨[("Images", ["jpg"]), ("Documents", ["pdf"])], 1/2⟩ []
        "Documents" true ⟨"tax", 0⟩ = ["Documents", "tax"] ∧
    dest_folder ⟨[("Images", ["jpg"]), ("Documents", ["pdf"])], 1/2⟩ []
        "Images" true ⟨"cats", 1/2⟩ = ["Images", "cats"] := by
  constructor
  · exact (dest_folder_policy ⟨[("Images", ["jpg"]), ("Documents", ["pdf"])], 1/2⟩ []
      "Documents" true ⟨"tax", 0⟩).1 rfl rfl
  · have h := (dest_folder_policy ⟨[("Images", ["jpg"]), ("Documents", ["pdf"])], 1/2⟩ []
      "Images" true ⟨"cats", 1/2⟩).2.1 rfl (by simp)
    rw [h]
    norm_num

/-- Result of one iteration of the probe loop in `organize_file`:
the `file_path.exists()` check followed by the `open(file_path, 'rb')` probe. -/
inductive ProbeStatus
  | vanished
  | locked
  | ok
deriving DecidableEq, Repr

/-- How the probe phase ended. -/
inductive ProbeOutcome
  | vanished
  | locked
  | ready
deriving DecidableEq, Repr

/-- The retry loop of `organize_file` (organizer.py lines 86–99):
`retries = 3; while retries > 0: exists-check / open-probe; on failure
`time.sleep(1)` and decrement`. Returns the outcome together with the list of
sleep durations (in seconds) actually performed. -/
def probe_loop (probe : Nat → ProbeStatus) : Nat → Nat → ProbeOutcome × List ℚ
  | 0, _ => (ProbeOutcome.locked, [])
  | r + 1, i =>
    match probe i with
    | ProbeStatus.vanished => (ProbeOutcome.vanished, [])
    | ProbeStatus.ok => (ProbeOutcome.ready, [])
    | ProbeStatus.locked =>
      let rest := probe_loop probe r (i + 1)
      (rest.1, 1 :: rest.2)

/-- A source file: directory components plus `Path.stem` / `Path.suffix`. -/
structure SrcFile where
  dirs : FsPath
  stem : String
  suffix : String
deriving DecidableEq, Repr

/-- `file_path.name`. -/
def SrcFile.name (f : SrcFile) : String := f.stem ++ f.suffix

/-- `file_path.suffix.lower().replace('.', '')` (`get_category_by_extension`):
lowercase every character, then drop every dot. -/
def SrcFile.ext (f : SrcFile) : String :=
  ⟨(f.suffix.data.map Char.toLower).filter (fun c => c ≠ '.')⟩

/-- A filesystem entry as the batch walker sees it: directory components
relative to the walk root, plus the bare filename. -/
structure FsEntry where
  dirs : FsPath
  name : String
deriving DecidableEq, Repr

/-- The entry a `SrcFile` occupies on disk. -/
def SrcFile.entry (f : SrcFile) : FsEntry := ⟨f.dirs, f.name⟩

/-- External world observed by one `organize_file` run: the probe results per
retry iteration, the detector's MIME type, the classifier result (used only
when AI applies), whether the destination filename already exists, the
timestamp string, whether `shutil.move` succeeds, and whether the DB insert
persists (it is wrapped in try/except). -/
structure OrganizeEnv where
  probe : Nat → ProbeStatus
  mime_type : String
  ai : AIResult
  dest_exists : Bool
  timestamp : String
  move_ok : Bool
  db_ok : Bool
  size : Nat
  created_date : String

/-- The dict passed to `FileDatabase.insert_file` by `organize_file`. -/
structure IndexRecord where
  file_path : FsEntry
  original_path : FsEntry
  mime_type : String
  category : String
  ai_label : String
  confidence : ℚ
  size : Nat
  created_date : String
deriving DecidableEq, Repr

/-- Terminal state of one `organize_file` run. -/
inductive MoveOutcome
  | skipped_vanished
  | skipped_locked
  | move_failed (dest : FsEntry)
  | moved (dest : FsEntry)
deriving DecidableEq, Repr

/-- Observable result of `organize_file`: terminal state, the sleeps performed
by the retry loop, and the index record inserted (if any). -/
structure OrganizeResult where
  outcome : MoveOutcome
  sleeps : List ℚ
  inserted : Option IndexRecord
deriving DecidableEq, Repr

/-- `SmartFileOrganizer.organize_file` (organizer.py lines 79–163): probe with
retry, detect category, classify when AI applies, resolve the destination via
the confidence policy, disambiguate a colliding name with a timestamp suffix,
move, and record in the index only after a successful move. -/
def organize_file (cfg : Config) (organized_dir : FsPath) (f : SrcFile)
    (use_ai : Bool) (env : OrganizeEnv) : OrganizeResult :=
  match probe_loop env.probe 3 0 with
  | (ProbeOutcome.vanished, s) => ⟨MoveOutcome.skipped_vanished, s, none⟩
  | (ProbeOutcome.locked, s) => ⟨MoveOutcome.skipped_locked, s, none⟩
  | (ProbeOutcome.ready, s) =>
    let category := get_category_by_extension cfg.categories f.ext
    let should_use_ai := use_ai && aiApplicableCategories.contains category
    let ai_result := if should_use_ai then env.ai else ⟨"not_classified", 0⟩
    let folder := dest_folder cfg organized_dir category use_ai ai_result
    let dest_name :=
      if env.dest_exists then f.stem ++ "_" ++ env.timestamp ++ f.suffix else f.name
    let dest : FsEntry := ⟨folder, dest_name⟩
    if env.move_ok then
      { outcome := MoveOutcome.moved dest
        sleeps := s
        inserted :=
          if env.db_ok then
            some ⟨dest, f.entry, env.mime_type, category, ai_result.label,
                  ai_result.confidence, env.size, env.created_date⟩
          else none }
    else ⟨MoveOutcome.move_failed dest, s, none⟩

/-- Helper: the retry loop performs at most `r` sleeps, each of exactly 1 s. -/
theorem probe_loop_sleeps (probe : Nat → ProbeStatus) (r i : Nat) :
    (probe_loop probe r i).2.length ≤ r ∧ ∀ d ∈ (probe_loop probe r i).2, d = 1 := by
  induction r generalizing i with
  | zero => simp [probe_loop]
  | succ n ih =>
    cases hp : probe i with
    | vanished => simp [probe_loop, hp]
    | ok => simp [probe_loop, hp]
    | locked =>
      refine ⟨?_, ?_⟩
      · simpa [probe_loop, hp] using Nat.succ_le_succ (ih (i + 1)).1
      · intro d hd
        simp only [probe_loop, hp, List.mem_cons] at hd
        rcases hd with rfl | hd
        · rfl
        · exact (ih (i + 1)).2 d hd

/-- Helper: on an always-locked file the loop exhausts all retries. -/
theorem probe_loop_all_locked (probe : Nat → ProbeStatus)
    (h : ∀ i, probe i = ProbeStatus.locked) (r i : Nat) :
    probe_loop probe r i = (ProbeOutcome.locked, List.replicate r 1) := by
  induction r generalizing i with
  | zero => simp [probe_loop]
  | succ n ih => simp [probe_loop, h i, ih (i + 1), List.replicate_succ]

/-- Helper: if the file vanishes at iteration `k` (the earlier iterations all
finding it locked), the loop stops there with `k` one-second sleeps. -/
theorem probe_loop_vanished (probe : Nat → ProbeStatus) (r i k : Nat) (hk : k < r)
    (hv : probe (i + k) = ProbeStatus.vanished)
    (hl : ∀ j, j < k → probe (i + j) = ProbeStatus.locked) :
    probe_loop probe r i = (ProbeOutcome.vanished, List.replicate k 1) := by
  induction k generalizing r i with
  | zero =>
    cases r with
    | zero => omega
    | succ r' =>
      simp only [Nat.add_zero] at hv
      simp [probe_loop, hv]
  | succ m ih =>
    cases r with
    | zero => omega
    | succ r' =>
      have hi : probe i = ProbeStatus.locked := by
        simpa using hl 0 (Nat.succ_pos m)
      have hv' : probe (i + 1 + m) = ProbeStatus.vanished := by
        have h : i + 1 + m = i + (m + 1) := by omega
        rw [h]; exact hv
      have hl' : ∀ j, j < m → probe (i + 1 + j) = ProbeStatus.locked := by
        intro j hj
        have h : i + 1 + j = i + (j + 1) := by omega
        rw [h]; exact hl (j + 1) (Nat.succ_lt_succ hj)
      have hrec := ih r' (i + 1) (by omega) hv' hl'
      simp [probe_loop, hi, hrec, List.replicate_succ]

/-- Helper: `organize_file` reports exactly the sleeps of its probe loop. -/
theorem organize_file_sleeps (cfg : Config) (root : FsPath) (f : SrcFile)
    (use_ai : Bool) (env : OrganizeEnv) :
    (organize_file cfg root f use_ai env).sleeps = (probe_loop env.probe 3 0).2 := by
  unfold organize_file
  rcases hp : probe_loop env.probe 3 0 with ⟨o, s⟩
  cases o with
  | vanished => rfl
  | locked => rfl
  | ready => by_cases hm : env.move_ok <;> simp [hm]

/-- C5 (amended): the probe retry of `organize_file` performs at most three
sleeps, every sleep lasts exactly 1 second (a constant schedule, not an
escalating one), and on a file locked throughout, the budget is exhausted
after sleeps `[1, 1, 1]` yielding a Skipped outcome with no index insert. -/
theorem organize_retry_fixed_backoff (cfg : Config) (root : FsPath) (f : SrcFile)
    (use_ai : Bool) (env : OrganizeEnv) :
    (organize_file cfg root f use_ai env).sleeps.length ≤ 3 ∧
    (∀ d ∈ (organize_file cfg root f use_ai env).sleeps, d = 1) ∧
    ((∀ i, env.probe i = ProbeStatus.locked) →
      (organize_file cfg root f use_ai env).outcome = MoveOutcome.skipped_locked ∧
      (organize_file cfg root f use_ai env).sleeps = [1, 1, 1] ∧
      (organize_file cfg root f use_ai env).inserted = none) := by
  have hs := probe_loop_sleeps env.probe 3 0
  have heq := organize_file_sleeps cfg root f use_ai env
  refine ⟨?_, ?_, ?_⟩
  · rw [heq]; exact hs.1
  · rw [heq]; exact hs.2
  · intro hall
    have hp := probe_loop_all_locked env.probe hall 3 0
    unfold organize_file
    rw [hp]
    refine ⟨rfl, by norm_num [List.replicate_succ], rfl⟩

/-- Python `str.startswith`, on the character lists. -/
def strStartsWith (s p : String) : Bool := p.data.isPrefixOf s.data

/-- `organize_all`'s skip list (organizer.py line 173): the configured
category names plus `"Others"` and `"Unreadable_Docs"`. -/
def category_folders (cfg : Config) : List String :=
  cfg.categories.map Prod.fst ++ ["Others", "Unreadable_Docs"]

/-- The walker's per-file admission test (organizer.py lines 175–197): a file
survives unless its top-level path component under the root is a known
category folder, its name starts with `'.'`, or it is `file_index.db`. -/
def discovered (cfg : Config) (e : FsEntry) : Bool :=
  (match e.dirs with
   | [] => true
   | d :: _ => decide (d ∉ category_folders cfg))
  && !(strStartsWith e.name ".")
  && decide (e.name ≠ "file_index.db")

/-- The file list produced by the walker's scan. -/
def discover (cfg : Config) (fs : List FsEntry) : List FsEntry :=
  fs.filter (fun e => discovered cfg e)

/-- One batch step for a discovered file, in-place
(`organized_dir == watch_dir`): a moved file now occupies its destination
entry; otherwise it stays where it was. -/
def batch_step (cfg : Config) (use_ai : Bool) (env : OrganizeEnv) (f : SrcFile) : FsEntry :=
  match (organize_file cfg [] f use_ai env).outcome with
  | MoveOutcome.moved dest => dest
  | _ => f.entry

/-- The filesystem after `organize_all`: every discovered file is processed
by `organize_file`, every other entry is untouched. -/
def run_batch (cfg : Config) (use_ai : Bool) (envOf : SrcFile → OrganizeEnv)
    (fs : List SrcFile) : List FsEntry :=
  fs.map (fun f => if discovered cfg f.entry then batch_step cfg use_ai (envOf f) f else f.entry)

/-- Helper: `get_category_by_extension` always lands in the skip list. -/
theorem get_category_mem_folders (cfg : Config) (ext : String) :
    get_category_by_extension cfg.categories ext ∈ category_folders cfg := by
  rcases h : List.find? (fun ce => ce.2.contains ext) cfg.categories with _ | ce
  · rw [get_category_by_extension, h]
    simp [category_folders]
  · have hm : ce ∈ cfg.categories := List.mem_of_find?_eq_some h
    rw [get_category_by_extension, h]
    exact List.mem_append_left _ (List.mem_map_of_mem Prod.fst hm)

/-- Helper: the resolved destination folder starts with the category. -/
theorem dest_folder_head (cfg : Config) (category : String) (use_ai : Bool)
    (r : AIResult) :
    ∃ rest, dest_folder cfg [] category use_ai r = category :: rest := by
  unfold dest_folder
  dsimp only
  repeat' split
  all_goals first
  | exact ⟨[r.label], rfl⟩
  | exact ⟨[], rfl⟩

/-- Helper: a successful in-place move lands under a category folder. -/
theorem organize_file_moved_dirs (cfg : Config) (f : SrcFile) (use_ai : Bool)
    (env : OrganizeEnv) (dest : FsEntry)
    (h : (organize_file cfg [] f use_ai env).outcome = MoveOutcome.moved dest) :
    ∃ c ∈ category_folders cfg, ∃ rest, dest.dirs = c :: rest := by
  refine ⟨get_category_by_extension cfg.categories f.ext,
    get_category_mem_folders cfg f.ext, ?_⟩
  unfold organize_file at h
  rcases hp : probe_loop env.probe 3 0 with ⟨o, s⟩
  rw [hp] at h
  cases o with
  | vanished => exact absurd h (by simp)
  | locked => exact absurd h (by simp)
  | ready =>
    by_cases hm : env.move_ok
    · simp only [hm, if_true, MoveOutcome.moved.injEq] at h
      obtain rfl := h.symm
      exact dest_folder_head cfg _ use_ai _
    · simp [hm] at h

/-- C2: the walker excludes every file under a top-level category folder,
every hidden file, and the index store's own `file_index.db`; consequently a
batch run in which every discovered file was successfully moved leaves a tree
on which a second discovery finds zero files. -/
theorem batch_rerun_discovers_nothing (cfg : Config) (use_ai : Bool)
    (envOf : SrcFile → OrganizeEnv) (fs : List SrcFile)
    (hdone : ∀ f ∈ fs, discovered cfg f.entry = true →
      ∃ dest, (organize_file cfg [] f use_ai (envOf f)).outcome = MoveOutcome.moved dest) :
    (∀ e : FsEntry,
      ((∃ c ∈ category_folders cfg, ∃ rest, e.dirs = c :: rest) ∨
        strStartsWith e.name "." = true ∨ e.name = "file_index.db") →
      discovered cfg e = false) ∧
    discover cfg (run_batch cfg use_ai envOf fs) = [] := by
  have hexcl : ∀ e : FsEntry,
      ((∃ c ∈ category_folders cfg, ∃ rest, e.dirs = c :: rest) ∨
        strStartsWith e.name "." = true ∨ e.name = "file_index.db") →
      discovered cfg e = false := by
    rintro ⟨dirs, name⟩ (⟨c, hc, rest, hdirs⟩ | hdot | hdb)
    · simp only at hdirs
      subst hdirs
      simp [discovered, hc]
    · simp only at hdot
      simp [discovered, hdot]
    · simp only at hdb
      simp [discovered, hdb]
  refine ⟨hexcl, ?_⟩
  rw [discover, List.filter_eq_nil_iff]
  intro e he
  simp only [run_batch, List.mem_map] at he
  obtain ⟨f, hf, rfl⟩ := he
  by_cases hd : discovered cfg f.entry = true
  · simp only [hd, if_true]
    obtain ⟨dest, hdest⟩ := hdone f hf hd
    have hstep : batch_step cfg use_ai (envOf f) f = dest := by
      unfold batch_step
      rw [hdest]
    rw [hstep]
    have := hexcl dest (Or.inl (organize_file_moved_dirs cfg f use_ai (envOf f) dest hdest))
    simp [this]
  · have hd' : discovered cfg f.entry = false := by
      simpa using hd
    simp [hd', Bool.not_eq_true]

/-- A concrete configuration mirroring the shipped `config.yaml` shape. -/
def cfgEx : Config :=
  ⟨[("Images", ["jpg", "png"]), ("Videos", ["mp4"]),
    ("Documents", ["pdf", "txt"]), ("Audio", ["mp3"])], 1/2⟩

/-- A concrete loose source file `report.pdf` at the watch root. -/
def fEx : SrcFile := ⟨[], "report", ".pdf"⟩

/-- An environment whose probe finds the file locked at every attempt. -/
def envLocked : OrganizeEnv :=
  ⟨fun _ => ProbeStatus.locked, "application/pdf", ⟨"tax", 1⟩, false,
   "20250101_120000", true, true, 10, "2025-01-01"⟩

/-- An environment whose file has vanished before the first probe. -/
def envVanished : OrganizeEnv :=
  ⟨fun _ => ProbeStatus.vanished, "application/pdf", ⟨"tax", 1⟩, false,
   "20250101_120000", true, true, 10, "2025-01-01"⟩

/-- An environment where everything succeeds at once. -/
def envOk : OrganizeEnv :=
  ⟨fun _ => ProbeStatus.ok, "application/pdf", ⟨"tax", 9/10⟩, false,
   "20250101_120000", true, true, 10, "2025-01-01"⟩

/-- Witness for `batch_rerun_discovers_nothing`: re-scanning after the
successful in-place run on `report.pdf` discovers zero files. -/
theorem batch_rerun_discovers_nothing_witness :
    discover cfgEx (run_batch cfgEx true (fun _ => envOk) [fEx]) = [] := by
  refine (batch_rerun_discovers_nothing cfgEx true (fun _ => envOk) [fEx] ?_).2
  intro f hf _
  have hfe : f = fEx := by simpa using hf
  subst hfe
  exact ⟨⟨["Documents", "tax"], "report.pdf"⟩, by rfl⟩

/-- C5 counterexample: on a persistently locked file the sleep schedule is
`[1, 1, 1]` seconds — it is not an increasing sequence and contains no
sub-second duration, contradicting the claimed escalating backoff. -/
theorem retry_backoff_not_escalating :
    (organize_file cfgEx [] fEx true envLocked).sleeps = [1, 1, 1] ∧
    ¬ (List.Chain' (fun a b => a < b) (organize_file cfgEx [] fEx true envLocked).sleeps ∧
       ∃ d ∈ (organize_file cfgEx [] fEx true envLocked).sleeps, d < 1) := by
  have h : (organize_file cfgEx [] fEx true envLocked).sleeps = [1, 1, 1] := rfl
  refine ⟨h, ?_⟩
  rw [h]
  rintro ⟨hc, -⟩
  exact absurd (List.chain'_cons.mp hc).1 (lt_irrefl (1 : ℚ))

/-- Witness for `organize_retry_fixed_backoff` on the always-locked file. -/
theorem organize_retry_fixed_backoff_witness :
    (organize_file cfgEx [] fEx true envLocked).outcome = MoveOutcome.skipped_locked ∧
    (organize_file cfgEx [] fEx true envLocked).inserted = none :=
  ⟨((organize_retry_fixed_backoff cfgEx [] fEx true envLocked).2.2 (fun _ => rfl)).1,
   ((organize_retry_fixed_backoff cfgEx [] fEx true envLocked).2.2 (fun _ => rfl)).2.2⟩

/-- C6: a source file that has vanished at probe iteration `i` (earlier
iterations finding it locked) makes `organize_file` terminate as
skipped-vanished at once: no further retry sleeps beyond the `i` already
performed, no move, and no index record. -/
theorem organize_vanished_skipped (cfg : Config) (root : FsPath) (f : SrcFile)
    (use_ai : Bool) (env : OrganizeEnv) (i : Nat) (hi : i < 3)
    (hv : env.probe i = ProbeStatus.vanished)
    (hl : ∀ j, j < i → env.probe j = ProbeStatus.locked) :
    (organize_file cfg root f use_ai env).outcome = MoveOutcome.skipped_vanished ∧
    (organize_file cfg root f use_ai env).inserted = none ∧
    (organize_file cfg root f use_ai env).sleeps = List.replicate i 1 := by
  have hp := probe_loop_vanished env.probe 3 0 i hi (by simpa using hv)
    (by intro j hj; simpa using hl j hj)
  unfold organize_file
  rw [hp]
  exact ⟨rfl, rfl, rfl⟩

/-- Witness for `organize_vanished_skipped`: a file gone before the first
probe is skipped with zero sleeps, no move, no record. -/
theorem organize_vanished_skipped_witness :
    (organize_file cfgEx [] fEx true envVanished).outcome = MoveOutcome.skipped_vanished ∧
    (organize_file cfgEx [] fEx true envVanished).inserted = none ∧
    (organize_file cfgEx [] fEx true envVanished).sleeps = [] := by
  have h := organize_vanished_skipped cfgEx [] fEx true envVanished 0 (by norm_num) rfl
    (fun j hj => absurd hj (Nat.not_lt_zero j))
  simpa using h

/-- C10: an index record is inserted only after a successful move, and the
record's `file_path` is exactly the destination the file was moved to; runs
that end skipped or move-failed leave the index unchanged. -/
theorem index_record_only_after_move (cfg : Config) (root : FsPath) (f : SrcFile)
    (use_ai : Bool) (env : OrganizeEnv) (rec : IndexRecord)
    (h : (organize_file cfg root f use_ai env).inserted = some rec) :
    (organize_file cfg root f use_ai env).outcome = MoveOutcome.moved rec.file_path := by
  unfold organize_file at h ⊢
  rcases hp : probe_loop env.probe 3 0 with ⟨o, s⟩
  rw [hp] at h
  cases o with
  | vanished => exact absurd h (by simp)
  | locked => exact absurd h (by simp)
  | ready =>
    by_cases hm : env.move_ok
    · by_cases hd : env.db_ok
      · simp only [hm, hd, if_true] at h ⊢
        obtain rfl := Option.some.inj h
        rfl
      · simp [hm, hd] at h
    · simp [hm] at h

/-- Witness for `index_record_only_after_move`: in the all-success
environment a record is inserted and the theorem yields the moved outcome at
the recorded destination. -/
theorem index_record_only_after_move_witness :
    (organize_file cfgEx [] fEx true envOk).outcome =
      MoveOutcome.moved ⟨["Documents", "tax"], "report.pdf"⟩ :=
  index_record_only_after_move cfgEx [] fEx true envOk
    ⟨⟨["Documents", "tax"], "report.pdf"⟩, ⟨[], "report.pdf"⟩, "application/pdf",
      "Documents", "tax", 9/10, 10, "2025-01-01"⟩ (by rfl)

/-- Python substring test `sub in s`, on character lists. -/
def listInfix (p : List Char) : List Char → Bool
  | [] => p.isPrefixOf []
  | c :: rest => p.isPrefixOf (c :: rest) || listInfix p rest

/-- `sub in s` for strings. -/
def strContains (s sub : String) : Bool := listInfix sub.data s.data

/-- `FileDetector.is_image`. -/
def is_image (mime_type : String) : Bool := strStartsWith mime_type "image/"

/-- `FileDetector.is_video`. -/
def is_video (mime_type : String) : Bool := strStartsWith mime_type "video/"

/-- `FileDetector.is_audio`. -/
def is_audio (mime_type : String) : Bool := strStartsWith mime_type "audio/"

/-- `FileDetector.is_document`: exact `application/pdf`, or substring
`wordprocessingml`, or substring `text/`. -/
def is_document (mime_type : String) : Bool :=
  mime_type == "application/pdf" || strContains mime_type "wordprocessingml" ||
    strContains mime_type "text/"

/-- The four classification capabilities. -/
inductive Capability
  | image
  | video
  | document
  | audio
deriving DecidableEq, Repr

/-- The routing of `SmartFileOrganizer.classify_with_ai` (organizer.py lines
55–77): which classifier's `classify` is invoked, `none` when the chain falls
through and the sentinel `{label: 'unknown', confidence: 0.0}` is returned. -/
def classify_route (categories : List (String × List String)) (mime_type : String)
    (f : SrcFile) : Option Capability :=
  if is_image mime_type then some Capability.image
  else if is_video mime_type then some Capability.video
  else if is_document mime_type
      || (get_category_by_extension categories f.ext == "Documents") then
    some Capability.document
  else if is_audio mime_type then some Capability.audio
  else none

/-- C4 counterexample: on MIME `application/octet-stream` for an `mp3` file
the router dispatches to no capability at all (the claim says exactly one);
and on a MIME satisfying both `is_audio` and `is_document` the router picks
the document capability, although the claimed priority order
`is_image, is_video, is_audio, is_document` would pick audio. -/
theorem classify_route_claim_false :
    classify_route cfgEx.categories "application/octet-stream" ⟨[], "song", ".mp3"⟩ = none ∧
    is_audio "audio/text/plain" = true ∧
    is_document "audio/text/plain" = true ∧
    classify_route cfgEx.categories "audio/text/plain" ⟨[], "song", ".mp3"⟩ =
      some Capability.document := by
  exact ⟨rfl, rfl, rfl, rfl⟩

/-- C4 (amended): the router dispatches to at most one capability, testing in
the order `is_image`, `is_video`, `is_document`-or-extension-Documents,
`is_audio`; when nothing matches, no capability is invoked. -/
theorem classify_route_order (categories : List (String × List String))
    (mime_type : String) (f : SrcFile) :
    (is_image mime_type = true →
      classify_route categories mime_type f = some Capability.image) ∧
    (is_image mime_type = false → is_video mime_type = true →
      classify_route categories mime_type f = some Capability.video) ∧
    (is_image mime_type = false → is_video mime_type = false →
      (is_document mime_type
        || (get_category_by_extension categories f.ext == "Documents")) = true →
      classify_route categories mime_type f = some Capability.document) ∧
    (is_image mime_type = false → is_video mime_type = false →
      (is_document mime_type
        || (get_category_by_extension categories f.ext == "Documents")) = false →
      is_audio mime_type = true →
      classify_route categories mime_type f = some Capability.audio) ∧
    (is_image mime_type = false → is_video mime_type = false →
      (is_document mime_type
        || (get_category_by_extension categories f.ext == "Documents")) = false →
      is_audio mime_type = false →
      classify_route categories mime_type f = none) := by
  refine ⟨?_, ?_, ?_, ?_, ?_⟩ <;> intros <;> simp_all [classify_route]

/-- Witness for `classify_route_order`: a PDF goes to the document
capability; an un-fallen-through MP3 with audio MIME goes to audio. -/
theorem classify_route_order_witness :
    classify_route cfgEx.categories "application/pdf" fEx = some Capability.document ∧
    classify_route cfgEx.categories "audio/mpeg" ⟨[], "song", ".mp3"⟩ =
      some Capability.audio :=
  ⟨(classify_route_order cfgEx.categories "application/pdf" fEx).2.2.1 rfl rfl rfl,
   (classify_route_order cfgEx.categories "audio/mpeg" ⟨[], "song", ".mp3"⟩).2.2.2.1
      rfl rfl rfl rfl⟩

/-- The method names the class `FileDatabase` defines (database.py lines
8–121). -/
def fileDatabaseMethods : List String :=
  ["__init__", "init_database", "insert_file", "get_stats"]

/-- C3: `FileDatabase` defines no `search` method, although
`scripts/search.py` line 28 calls `db.search(query)` and the spec requires
a `search(query)` operation; every search-CLI invocation hits a missing
attribute. -/
theorem fileDatabase_search_missing : "search" ∉ fileDatabaseMethods := by
  decide

/-- A row of the SQLite `files` table (database.py lines 23–35): the
`file_path` column is declared `UNIQUE NOT NULL`. -/
structure DBRow where
  file_path : String
  original_path : String
  mime_type : String
  category : String
  ai_label : String
  confidence : ℚ
  size : Nat
  created_date : String
  classified_date : String
  metadata : String
deriving DecidableEq, Repr

/-- `FileDatabase.insert_file` (database.py lines 49–90):
`INSERT OR REPLACE` against the UNIQUE `file_path` column — SQLite deletes
every row conflicting on `file_path`, then inserts the new row. -/
def insert_file (tbl : List DBRow) (row : DBRow) : List DBRow :=
  (tbl.filter (fun q => q.file_path != row.file_path)) ++ [row]

/-- `FileDatabase.init_database`: a fresh store has an empty `files` table. -/
def init_database : List DBRow := []

/-- Helper: one upsert preserves pairwise-distinct `file_path`s. -/
theorem insert_file_pairwise (tbl : List DBRow) (row : DBRow)
    (h : List.Pairwise (fun a b => a.file_path ≠ b.file_path) tbl) :
    List.Pairwise (fun a b => a.file_path ≠ b.file_path) (insert_file tbl row) := by
  unfold insert_file
  rw [List.pairwise_append]
  refine ⟨h.filter _, List.pairwise_singleton _ _, ?_⟩
  intro a ha b hb
  rw [List.mem_singleton] at hb
  subst hb
  have := (List.mem_filter.mp ha).2
  simpa using this

/-- Helper: any upsert sequence from the fresh store keeps paths distinct. -/
theorem foldl_insert_pairwise (ops : List DBRow) (tbl : List DBRow)
    (h : List.Pairwise (fun a b => a.file_path ≠ b.file_path) tbl) :
    List.Pairwise (fun a b => a.file_path ≠ b.file_path) (ops.foldl insert_file tbl) := by
  induction ops generalizing tbl with
  | nil => exact h
  | cons r rs ih => exact ih _ (insert_file_pairwise tbl r h)

/-- C7: `insert_file` keeps destination paths unique — the inserted row is
present, every row sharing its `file_path` is that row itself (the prior
record was replaced, not duplicated), and after any sequence of upserts from
the fresh store no two rows share a `file_path`. -/
theorem insert_file_unique (ops : List DBRow) (tbl : List DBRow) (row : DBRow) :
    row ∈ insert_file tbl row ∧
    (∀ q ∈ insert_file tbl row, q.file_path = row.file_path → q = row) ∧
    List.Pairwise (fun a b => a.file_path ≠ b.file_path)
      (ops.foldl insert_file init_database) := by
  refine ⟨?_, ?_, ?_⟩
  · exact List.mem_append_right _ (List.mem_singleton_self row)
  · intro q hq hpath
    rcases List.mem_append.mp hq with hq | hq
    · have := (List.mem_filter.mp hq).2
      simp only [bne_iff_ne, ne_eq] at this
      exact absurd hpath this
    · exact List.mem_singleton.mp hq
  · exact foldl_insert_pairwise ops init_database (List.Pairwise.nil)

/-- First row fixture: `report.pdf` organized once. -/
def rowA : DBRow :=
  ⟨"Documents/Tax/report.pdf", "report.pdf", "application/pdf", "Documents",
   "Tax", 9/10, 10, "2025-01-01", "2025-01-01", "\x7b\x7d"⟩

/-- Second row fixture: the same destination path re-organized later. -/
def rowB : DBRow :=
  ⟨"Documents/Tax/report.pdf", "downloads/report.pdf", "application/pdf",
   "Documents", "Tax Forms", 4/5, 11, "2025-02-02", "2025-02-02", "\x7b\x7d"⟩

/-- Witness for `insert_file_unique`: re-inserting the same destination path
replaces the prior record, leaving a single row. -/
theorem insert_file_unique_witness :
    rowB ∈ insert_file [rowA] rowB ∧ insert_file [rowA] rowB = [rowB] :=
  ⟨(insert_file_unique [] [rowA] rowB).1, rfl⟩

/-- The character class removed by `DocumentClassifier.clean_filename`
(the regex `[\\/*?:"<>|]`). -/
def illegal_chars : List Char := ['\\', '/', '*', '?', ':', '"', '<', '>', '|']

/-- The `re.sub(r'[\\/*?:"<>|]', "", name)` stage: drop every illegal char. -/
def strip_illegal (name : String) : String :=
  ⟨name.data.filter (fun c => decide (c ∉ illegal_chars))⟩

/-- Python `str.strip()`: drop leading and trailing whitespace. -/
def pyStrip (s : String) : String :=
  ⟨List.reverse (List.dropWhile Char.isWhitespace
     (List.reverse (List.dropWhile Char.isWhitespace s.data)))⟩

/-- Python `str.title()`, on ASCII letters: a letter is uppercased when the
previous character is not a letter and lowercased otherwise; other
characters pass through. -/
def pyTitleAux : Bool → List Char → List Char
  | _, [] => []
  | prevAlpha, c :: rest =>
    if c.isAlpha then
      (if prevAlpha then c.toLower else c.toUpper) :: pyTitleAux true rest
    else
      c :: pyTitleAux false rest

/-- Python `str.title()` on a string. -/
def pyTitle (s : String) : String := ⟨pyTitleAux false s.data⟩

/-- `DocumentClassifier.clean_filename` (document_classifier.py lines 49–51):
`re.sub(r'[\\/*?:"<>|]', "", name).strip().title()`. -/
def clean_filename (name : String) : String := pyTitle (pyStrip (strip_illegal name))

/-- Unfolding lemma for `pyStrip`'s characters. -/
theorem pyStrip_data (s : String) :
    (pyStrip s).data = List.reverse (List.dropWhile Char.isWhitespace
      (List.reverse (List.dropWhile Char.isWhitespace s.data))) := rfl

/-- Unfolding lemma for `strip_illegal`'s characters. -/
theorem strip_illegal_data (name : String) :
    (strip_illegal name).data = name.data.filter (fun c => decide (c ∉ illegal_chars)) := rfl

/-- External model outputs consumed by `DocumentClassifier.classify`:
the stripped length of the extracted text, the KeyBERT keyword/score list
(`keywords_data`), and `find_best_existing_folder`'s best match when
existing folders were supplied. -/
structure DocClassifyEnv where
  text_len : Nat
  keywords : List (String × ℚ)
  best_match : Option (String × ℚ)

/-- Label/confidence selection of `DocumentClassifier.classify`
(document_classifier.py lines 83–125): unreadable text → `Unreadable_Docs`;
no keywords → `General_Docs`; a semantic match above 0.65 against an
existing folder merges into that folder's name verbatim; otherwise the top
keyword is cleaned into a new folder name. -/
def document_classify (existing_folders : List String) (env : DocClassifyEnv) : AIResult :=
  if env.text_len < 50 then ⟨"Unreadable_Docs", 0⟩
  else
    match env.keywords with
    | [] => ⟨"General_Docs", 0⟩
    | (k0, s0) :: _ =>
      match existing_folders, env.best_match with
      | _ :: _, some (best_folder, match_score) =>
        if 13/20 < match_score then ⟨best_folder, match_score⟩
        else ⟨clean_filename k0, s0⟩
      | _, _ => ⟨clean_filename k0, s0⟩

/-- The merge scenario: readable text, one keyword, and a strong semantic
match against the existing folder `"my docs"`. -/
def docEnvMerge : DocClassifyEnv := ⟨100, [("tax return", 9/10)], some ("my docs", 7/10)⟩

/-- C8 counterexample: the merge branch returns the existing folder name
`"my docs"` verbatim and the organizer uses it as the Documents subfolder —
it is not title-cased (cleaning would give `"My Docs"`), so not every label
used as a folder name is stripped-and-title-cased. -/
theorem merge_label_not_cleaned :
    (document_classify ["my docs"] docEnvMerge).label = "my docs" ∧
    clean_filename "my docs" = "My Docs" ∧
    (document_classify ["my docs"] docEnvMerge).label ≠
      clean_filename (document_classify ["my docs"] docEnvMerge).label ∧
    dest_folder cfgEx [] "Documents" true (document_classify ["my docs"] docEnvMerge) =
      ["Documents", "my docs"] := by
  have h : document_classify ["my docs"] docEnvMerge = ⟨"my docs", 7/10⟩ := by
    simp only [document_classify, docEnvMerge]
    norm_num
  refine ⟨by rw [h], rfl, by rw [h]; decide, by rw [h]; rfl⟩

/-- C8 (amended): a label minted by the document classifier's new-folder
branch equals `clean_filename` of the top keyword — every illegal path
character dropped, whitespace stripped, then title-cased (and the stripped
string indeed contains no illegal character); a merge-branch label instead
reuses the matched existing folder name verbatim. -/
theorem new_folder_label_cleaned (existing_folders : List String)
    (env : DocClassifyEnv) (k0 : String) (s0 : ℚ) (rest : List (String × ℚ))
    (hlen : ¬ env.text_len < 50) (hkw : env.keywords = (k0, s0) :: rest)
    (hnew : existing_folders = [] ∨
      ∀ bf ms, env.best_match = some (bf, ms) → ms ≤ 13/20) :
    (document_classify existing_folders env).label = clean_filename k0 ∧
    ∀ c ∈ (pyStrip (strip_illegal k0)).data, c ∉ illegal_chars := by
  constructor
  · unfold document_classify
    rw [if_neg hlen, hkw]
    rcases hnew with rfl | hbm
    · cases env.best_match with
      | none => rfl
      | some p => rfl
    · cases existing_folders with
      | nil =>
        cases env.best_match with
        | none => rfl
        | some p => rfl
      | cons a as =>
        cases hbmv : env.best_match with
        | none => rfl
        | some p =>
          rcases p with ⟨bf, ms⟩
          have hle := hbm bf ms hbmv
          simp only
          rw [if_neg (not_lt.mpr hle)]
  · intro c hc
    rw [pyStrip_data, List.mem_reverse] at hc
    have hc2 := (List.dropWhile_sublist _).subset hc
    rw [List.mem_reverse] at hc2
    have hc3 := (List.dropWhile_sublist _).subset hc2
    rw [strip_illegal_data] at hc3
    have hmem := (List.mem_filter.mp hc3).2
    simpa using hmem

/-- Witness for `new_folder_label_cleaned`: the keyword `"tax: 2024/draft"`
becomes the cleaned folder name `"Tax 2024Draft"`. -/
theorem new_folder_label_cleaned_witness :
    (document_classify [] ⟨100, [("tax: 2024/draft", 1)], none⟩).label =
      clean_filename "tax: 2024/draft" ∧
    clean_filename "tax: 2024/draft" = "Tax 2024Draft" := by
  refine ⟨(new_folder_label_cleaned [] ⟨100, [("tax: 2024/draft", 1)], none⟩
    "tax: 2024/draft" 1 [] (by norm_num) rfl (Or.inl rfl)).1, ?_⟩
  decide

end SmartOrganizer
